import Mathlib

/-!
Shallow embedding of the fall-detection pipeline of the medsense backend
(`backend/services/fall_detection/`): the suspect filter and fall
confirmation of `pipeline.py`, the per-frame orchestration
`FallDetectionPipeline.process_frame`, the degraded/mock detector path of
`yolo_service.py`, and the stream registry bookkeeping of
`video_stream_service.py`.

Conventions of the embedding:
* Python numbers (ints and floats) are modelled as rationals `ℚ`; Python's
  exact `/` on these inputs is `ℚ` division, and a division whose
  denominator may be zero (a potential `ZeroDivisionError`) is modelled by
  the checked division `divE` in the `Except Unit` monad.
* A Python dict of pose data is an association list `PoseDict`; a dict
  subscript that can raise (`KeyError`, or a `TypeError` in the arithmetic
  that consumes a value of the wrong shape) is a lookup in `Except Unit`.
* The detector and the pose estimator draw on `random.random()` and on an
  external model; their outputs are passed to the pipeline as explicit
  parameters (the random draws `r`, `c` of the mock path; an oracle
  `poses : ℕ → PoseDict` giving the estimator's output at its n-th
  invocation; an `infer` parameter for the real-inference outcome).
  `time.time()` (the `timestamp` field) is not modelled.
-/

namespace FallDetection

/-- A bounding box `(x1, y1, x2, y2)` in pixel coordinates. -/
abbrev Bbox := ℚ × ℚ × ℚ × ℚ

/-- Checked division: Python raises `ZeroDivisionError` when the denominator
is zero; otherwise it is exact division on these inputs. -/
def divE (a b : ℚ) : Except Unit ℚ :=
  if b = 0 then .error () else .ok (a / b)

/-- Embedding of `FallDetectionPipeline._is_suspect` (pipeline.py lines
55-95), with Lean's total `ℚ` division standing in for Python `/` (the one
division whose denominator could vanish, `width / height`, sits behind the
`height == 0` guard; `is_suspectE` below models the checked division
explicitly). The frame area is hardcoded to `640 * 480` exactly as in the
source. -/
def is_suspect (bbox : Bbox) : Bool :=
  let x1 := bbox.1
  let y1 := bbox.2.1
  let x2 := bbox.2.2.1
  let y2 := bbox.2.2.2
  let width := x2 - x1
  let height := y2 - y1
  if height = 0 then false
  else
    let aspect_ratio := width / height
    let center_y := (y1 + y2) / 2
    let box_area := width * height
    let frame_area : ℚ := 640 * 480
    let box_percentage := (box_area / frame_area) * 100
    if box_percentage > 50 ∧ height > 250 then false
    else if aspect_ratio > 1.5 then true
    else if center_y > 300 ∧ aspect_ratio > 0.6 ∧ aspect_ratio < 1.4 ∧ y2 > 380 then true
    else if height < 180 ∧ y2 > 360 then true
    else false

/-- `_is_suspect` with the aspect-ratio division modelled as Python's
checked division (raising on a zero denominator): the source guards it with
`if height == 0: return False`, so the division is unreachable when the
height is zero. The remaining divisions have the nonzero literal
denominators `640 * 480` and `2`. -/
def is_suspectE (bbox : Bbox) : Except Unit Bool :=
  let x1 := bbox.1
  let y1 := bbox.2.1
  let x2 := bbox.2.2.1
  let y2 := bbox.2.2.2
  let width := x2 - x1
  let height := y2 - y1
  if height = 0 then .ok false
  else do
    let aspect_ratio ← divE width height
    let center_y := (y1 + y2) / 2
    let box_area := width * height
    let frame_area : ℚ := 640 * 480
    let box_percentage := (box_area / frame_area) * 100
    if box_percentage > 50 ∧ height > 250 then .ok false
    else if aspect_ratio > 1.5 then .ok true
    else if center_y > 300 ∧ aspect_ratio > 0.6 ∧ aspect_ratio < 1.4 ∧ y2 > 380 then .ok true
    else if height < 180 ∧ y2 > 360 then .ok true
    else .ok false

/-- First-match evaluation of an ordered rule list: each rule is a
(condition, verdict) pair, the first rule whose condition holds decides,
and `default` applies when no rule matches. -/
def firstMatch (default : Bool) : List (Bool × Bool) → Bool
  | [] => default
  | (cond, verdict) :: rest => if cond then verdict else firstMatch default rest

/-- The spec's four decision rules for the suspect filter, evaluated in
order with first-match precedence (spec section 4.2), on the fixed
640x480 frame the code assumes: rule 1 is not-suspect on
`box_percentage > 50 AND height > 250`, rule 2 is suspect on
`aspect_ratio > 1.5`, rule 3 is suspect on
`center_y > 300 AND 0.6 < aspect_ratio < 1.4 AND y2 > 380`, rule 4 is
suspect on `height < 180 AND y2 > 360`, and the default is not suspect. -/
def suspect_rules (bbox : Bbox) : Bool :=
  let x1 := bbox.1
  let y1 := bbox.2.1
  let x2 := bbox.2.2.1
  let y2 := bbox.2.2.2
  let width := x2 - x1
  let height := y2 - y1
  let aspect_ratio := width / height
  let center_y := (y1 + y2) / 2
  let box_area := width * height
  let frame_area : ℚ := 640 * 480
  let box_percentage := (box_area / frame_area) * 100
  firstMatch false
    [ (decide (box_percentage > 50 ∧ height > 250), false),
      (decide (aspect_ratio > 1.5), true),
      (decide (center_y > 300 ∧ 0.6 < aspect_ratio ∧ aspect_ratio < 1.4 ∧ y2 > 380), true),
      (decide (height < 180 ∧ y2 > 360), true) ]

/-- The suspect filter as the spec's contract states it,
`is_suspect(bbox, frame_width, frame_height)`: written from the spec's
words (section 4.2) as a function of the bounding box AND the supplied
frame dimensions, with `box_percentage = (box_area / frame_area) * 100`
over `frame_area = frame_width * frame_height`, the zero-height guard of
the spec's malformed-geometry policy, and the same four rules in order.
This is the spec-side definition of a refinement comparison; the code-side
definition is `is_suspect`. -/
def is_suspect_spec (bbox : Bbox) (frame_width frame_height : ℚ) : Bool :=
  let x1 := bbox.1
  let y1 := bbox.2.1
  let x2 := bbox.2.2.1
  let y2 := bbox.2.2.2
  let width := x2 - x1
  let height := y2 - y1
  if height = 0 then false
  else
    let aspect_ratio := width / height
    let center_y := (y1 + y2) / 2
    let box_area := width * height
    let frame_area : ℚ := frame_width * frame_height
    let box_percentage := (box_area / frame_area) * 100
    if box_percentage > 50 ∧ height > 250 then false
    else if aspect_ratio > 1.5 then true
    else if center_y > 300 ∧ aspect_ratio > 0.6 ∧ aspect_ratio < 1.4 ∧ y2 > 380 then true
    else if height < 180 ∧ y2 > 360 then true
    else false

example : is_suspect (100, 200, 400, 260) = true := by norm_num [is_suspect]
example : is_suspect (50, 50, 590, 430) = false := by norm_num [is_suspect]
example : is_suspect (100, 100, 200, 300) = false := by norm_num [is_suspect]
example : suspect_rules (50, 50, 590, 430) = false := by norm_num [suspect_rules, firstMatch]
example : is_suspectE (10, 10, 50, 10) = .ok false := by norm_num [is_suspectE]
example : is_suspect_spec (0, 0, 600, 300) 10000 10000 = true := by norm_num [is_suspect_spec]
example : is_suspect (0, 0, 600, 300) = false := by norm_num [is_suspect]

/-- A value stored in a pose dict: a keypoint coordinate pair, a string
(e.g. the orientation tag), or a number (e.g. the confidence). A Python
value of any other shape in a slot the code subscripts or adds would raise
just as the wrong constructor here makes the checked access fail. -/
inductive PoseVal where
  | pt (x y : ℚ) : PoseVal
  | str (s : String) : PoseVal
  | num (q : ℚ) : PoseVal
deriving DecidableEq

/-- A pose dict as returned by `pose_service.estimate_pose`: an association
list from key to value (Python dict keys are unique; lookup takes the first
binding). -/
abbrev PoseDict := List (String × PoseVal)

/-- `pose_data[k][1]` for a keypoint `k`: raises unless the key is present
and holds a coordinate pair whose y the arithmetic can consume. -/
def getY (p : PoseDict) (k : String) : Except Unit ℚ :=
  match p.lookup k with
  | some (.pt _ y) => .ok y
  | _ => .error ()

/-- `pose_data[k]` read as a number (used for `pose_data['confidence']`):
raises unless the key is present and holds a number. -/
def getNum (p : PoseDict) (k : String) : Except Unit ℚ :=
  match p.lookup k with
  | some (.num q) => .ok q
  | _ => .error ()

/-- Embedding of `FallDetectionPipeline._confirm_fall` (pipeline.py lines
97-115). `if not pose_data: return False` is Python falsiness: it fires on
`None` and on an empty dict. `pose_data.get('orientation') == 'horizontal'`
never raises (`.get` of a missing key is `None`); the unguarded subscripts
of `nose`, `left_hip` and `right_hip` can. -/
def confirm_fall (pose_data : Option PoseDict) : Except Unit Bool :=
  match pose_data with
  | none => .ok false
  | some p =>
    if p = [] then .ok false
    else if p.lookup "orientation" = some (.str "horizontal") then .ok true
    else do
      let nose_y ← getY p "nose"
      let lh ← getY p "left_hip"
      let rh ← getY p "right_hip"
      let hip_y := (lh + rh) / 2
      if |nose_y - hip_y| < 20 then .ok true else .ok false

/-- The horizontal mock pose of `pose_service.estimate_pose`
(pose_service.py lines 20-32), used as a concrete test input. -/
def horizontalPose : PoseDict :=
  [("nose", .pt 150 280), ("left_shoulder", .pt 140 280),
   ("right_shoulder", .pt 160 280), ("left_hip", .pt 140 285),
   ("right_hip", .pt 160 285), ("left_ankle", .pt 140 290),
   ("right_ankle", .pt 160 290), ("orientation", .str "horizontal"),
   ("confidence", .num 0.9)]

/-- The vertical mock pose of `pose_service.estimate_pose`
(pose_service.py lines 33-45), used as a concrete test input. -/
def verticalPose : PoseDict :=
  [("nose", .pt 150 120), ("left_shoulder", .pt 140 140),
   ("right_shoulder", .pt 160 140), ("left_hip", .pt 145 200),
   ("right_hip", .pt 155 200), ("left_ankle", .pt 145 280),
   ("right_ankle", .pt 155 280), ("orientation", .str "vertical"),
   ("confidence", .num 0.95)]

example : confirm_fall (some horizontalPose) = .ok true := by
  simp [confirm_fall, horizontalPose, List.lookup]
example : confirm_fall (some verticalPose) = .ok false := by
  simp [confirm_fall, verticalPose, getY, List.lookup]
  norm_num [bind, Except.bind]
example : confirm_fall none = .ok false := rfl

/-- One detector output entry, `{'bbox': ..., 'confidence': ..., 'class': 'person'}`
(the class is always `'person'` and is not repeated here). -/
structure Person where
  bbox : Bbox
  confidence : ℚ
deriving DecidableEq

/-- One entry of `results['detections']` built by `process_frame`. -/
structure DetectionInfo where
  bbox : Bbox
  is_suspect : Bool
  pose : Option PoseDict
deriving DecidableEq

/-- The `results['event_details']` dict built on a confirmed fall. -/
structure EventDetails where
  confidence : ℚ
  bbox : Bbox
  pose : PoseDict
deriving DecidableEq

/-- The loop state of `process_frame`: the accumulated mutable fields of
`results`, plus `pose_calls`, the number of `pose_service.estimate_pose`
invocations made so far (the index into the pose oracle). -/
structure LoopState where
  detections : List DetectionInfo
  fall_detected : Bool
  event_details : Option EventDetails
  pose_calls : ℕ
deriving DecidableEq

/-- The result dict of `process_frame` (pipeline.py lines 13-19), minus the
`timestamp` field (`time.time()` is not modelled). -/
structure FrameResult where
  camera_id : String
  detections : List DetectionInfo
  fall_detected : Bool
  event_details : Option EventDetails
deriving DecidableEq

/-- One iteration of the `for person in persons` loop of `process_frame`
(pipeline.py lines 24-51). `poses` is the pose-estimator oracle: the dict
`estimate_pose` returns at its n-th invocation (the service ignores its
frame and bbox arguments and draws on `random.random()`). A confirmed fall
reads `pose_data['confidence']`, which raises when absent or non-numeric,
and OVERWRITES `results['fall_detected']` and `results['event_details']`. -/
def processPerson (poses : ℕ → PoseDict) (s : LoopState) (person : Person) :
    Except Unit LoopState :=
  let bbox := person.bbox
  let confidence := person.confidence
  if is_suspect bbox then do
    let pose_data := poses s.pose_calls
    let confirmed ← confirm_fall (some pose_data)
    let det : DetectionInfo := ⟨bbox, true, some pose_data⟩
    if confirmed then do
      let pose_conf ← getNum pose_data "confidence"
      .ok ⟨s.detections ++ [det], true,
           some ⟨(confidence + pose_conf) / 2, bbox, pose_data⟩,
           s.pose_calls + 1⟩
    else
      .ok ⟨s.detections ++ [det], s.fall_detected, s.event_details,
           s.pose_calls + 1⟩
  else
    .ok ⟨s.detections ++ [⟨bbox, false, none⟩], s.fall_detected,
         s.event_details, s.pose_calls⟩

/-- The whole `for person in persons` loop, left to right. -/
def processLoop (poses : ℕ → PoseDict) : List Person → LoopState →
    Except Unit LoopState
  | [], s => .ok s
  | person :: rest, s => do
    let s' ← processPerson poses s person
    processLoop poses rest s'

/-- `process_frame` with the final loop state exposed (so the number of
pose-estimator invocations is observable). -/
def processFrameFull (persons : List Person)
    (poses : ℕ → PoseDict) : Except Unit LoopState :=
  processLoop poses persons ⟨[], false, none, 0⟩

/-- Embedding of `FallDetectionPipeline.process_frame` (pipeline.py lines
9-53). The detector output (the `persons` list returned by
`yolo_service.detect_persons(frame)`) and the pose-estimator outputs (the
oracle `poses`) are explicit parameters; the function builds `results`
by folding the loop body over the detections. -/
def process_frame (camera_id : String) (persons : List Person)
    (poses : ℕ → PoseDict) : Except Unit FrameResult := do
  let s ← processFrameFull persons poses
  .ok ⟨camera_id, s.detections, s.fall_detected, s.event_details⟩

/-- Embedding of `YoloService._mock_detection` (yolo_service.py lines
107-115): `r` is the draw of `random.random()` deciding whether to emit the
single fabricated detection, `c` the draw feeding its confidence
`0.85 + c * 0.14`. -/
def mock_detection (r c : ℚ) : List Person :=
  if r > 0.3 then [⟨(100, 100, 200, 300), 0.85 + c * 0.14⟩] else []

/-- An opaque frame: only its presence matters to the embedded control
flow. -/
abbrev Frame := ℕ

/-- Embedding of `YoloService.detect_persons` (yolo_service.py lines
36-105). The real-inference branch (blob preparation, forward pass, NMS) is
abstracted by the oracle `infer`: `.ok dets` when inference succeeds with
detections `dets`, `.error ()` when anything in the try block raises, which
the source catches and turns into `self._mock_detection()`. `model_loaded`
is the flag set in `__init__`; `r`, `c` are the mock path's random draws. -/
def detect_persons (frame : Option Frame) (model_loaded : Bool)
    (infer : Except Unit (List Person)) (r c : ℚ) : List Person :=
  if frame = none ∨ model_loaded = false then mock_detection r c
  else
    match infer with
    | .ok dets => dets
    | .error _ => mock_detection r c

/-- The registries of `VideoStreamService` plus an event log of the capture
handles on which `.release()` has been invoked: `active_streams` maps a
camera URL to its capture handle (handles are identified by a number),
`stream_locks` records which URLs hold a lock, and `released` appends one
entry per `.release()` call, so a double release of a handle would show as
a repeated entry. -/
structure StreamState where
  active_streams : List (String × ℕ)
  stream_locks : List String
  released : List ℕ
deriving DecidableEq

/-- `del d[k]` on an association list: raises `KeyError` when the key is
absent, else removes its (unique, for a Python dict) binding. -/
def dictDel (k : String) (l : List (String × ℕ)) :
    Except Unit (List (String × ℕ)) :=
  if (l.lookup k).isSome then .ok (l.eraseP (fun kv => kv.1 == k))
  else .error ()

/-- Embedding of `VideoStreamService.release_stream` (video_stream_service.py
lines 160-167): `if camera_url in self.active_streams:` guards the
subscript, the `.release()` call and the `del`; `if camera_url in
self.stream_locks:` guards the lock deletion. Every dict access is behind
its membership check, so the function can only return `.ok`. -/
def release_stream (camera_url : String) (s : StreamState) :
    Except Unit StreamState :=
  match s.active_streams.lookup camera_url with
  | some cap => do
    let active ← dictDel camera_url s.active_streams
    let locks :=
      if camera_url ∈ s.stream_locks then s.stream_locks.erase camera_url
      else s.stream_locks
    .ok ⟨active, locks, s.released ++ [cap]⟩
  | none => .ok s

/-- Embedding of the failure path of `VideoStreamService.read_frame`
(video_stream_service.py lines 66-79) in the case where the stream for
`camera_url` exists in `active_streams` and both `stream.read()` attempts
fail: the code calls `stream.release()`, then deletes the URL from
`active_streams` (behind an `in` check) while leaving `stream_locks`
untouched, and returns `None`. -/
def read_frame_failure (camera_url : String) (s : StreamState) :
    Except Unit StreamState :=
  match s.active_streams.lookup camera_url with
  | some cap => do
    let active ←
      if (s.active_streams.lookup camera_url).isSome then
        dictDel camera_url s.active_streams
      else .ok s.active_streams
    .ok ⟨active, s.stream_locks, s.released ++ [cap]⟩
  | none => .error ()

/-! ### Shared evaluation lemmas for the two mock poses -/

lemma confirm_fall_horizontalPose : confirm_fall (some horizontalPose) = .ok true := by
  simp [confirm_fall, horizontalPose, List.lookup]

lemma getNum_horizontalPose_confidence :
    getNum horizontalPose "confidence" = .ok (9 / 10) := by
  simp [getNum, horizontalPose, List.lookup]
  norm_num

lemma lookup_horizontalPose_orientation :
    horizontalPose.lookup "orientation" = some (.str "horizontal") := by
  simp [horizontalPose, List.lookup]

lemma lookup_verticalPose_orientation :
    verticalPose.lookup "orientation" = some (.str "vertical") := by
  simp [verticalPose, List.lookup]

lemma getY_verticalPose :
    getY verticalPose "nose" = .ok 120 ∧ getY verticalPose "left_hip" = .ok 200 ∧
      getY verticalPose "right_hip" = .ok 200 := by
  refine ⟨?_, ?_, ?_⟩ <;> simp [getY, verticalPose, List.lookup]

/-! ### Theorems for the claims -/

/-- C1: with the frame area fixed at 640*480 as the code assumes, for every
bounding box with `y2 > y1`, `_is_suspect` returns exactly the result of
evaluating the spec's four rules in order with first-match precedence;
every box meeting both the rule-1 and rule-2 conditions evaluates as not
suspect, and in particular `bbox = (50, 50, 590, 430)` evaluates as not
suspect. -/
theorem is_suspect_matches_rule_order :
    (∀ x1 y1 x2 y2 : ℚ, y2 > y1 →
      is_suspect (x1, y1, x2, y2) = suspect_rules (x1, y1, x2, y2)) ∧
    (∀ x1 y1 x2 y2 : ℚ,
      ((x2 - x1) * (y2 - y1) / (640 * 480)) * 100 > 50 → y2 - y1 > 250 →
      (x2 - x1) / (y2 - y1) > 1.5 →
      is_suspect (x1, y1, x2, y2) = false) ∧
    is_suspect (50, 50, 590, 430) = false := by
  refine ⟨?_, ?_, ?_⟩
  · intro x1 y1 x2 y2 h
    have hne : y2 - y1 ≠ 0 := sub_ne_zero.mpr (ne_of_gt h)
    simp only [is_suspect, suspect_rules, firstMatch, if_neg hne,
      decide_eq_true_eq]
  · intro x1 y1 x2 y2 h1 h2 h3
    have hne : y2 - y1 ≠ 0 :=
      ne_of_gt (lt_trans (by norm_num : (0 : ℚ) < 250) h2)
    simp only [is_suspect, if_neg hne]
    rw [if_pos ⟨h1, h2⟩]
  · norm_num [is_suspect]

/-- Witness for C1: the rule-equivalence at the spec's example box
`(50, 50, 590, 430)` (whose `y2 = 430 > 50 = y1`), and the rule-1-wins
consequence at `(0, 0, 640, 400)`, which meets both the rule-1 conditions
(`box_percentage = 2500/30 > 50`, `height = 400 > 250`) and the rule-2
condition (`aspect_ratio = 8/5 > 1.5`). -/
theorem is_suspect_matches_rule_order_witness :
    is_suspect (50, 50, 590, 430) = suspect_rules (50, 50, 590, 430) ∧
    is_suspect (0, 0, 640, 400) = false ∧
    is_suspect (50, 50, 590, 430) = false :=
  ⟨is_suspect_matches_rule_order.1 50 50 590 430 (by norm_num),
   is_suspect_matches_rule_order.2.1 0 0 640 400 (by norm_num) (by norm_num)
     (by norm_num),
   is_suspect_matches_rule_order.2.2⟩

/-- Counterexample to C6: the code's `_is_suspect` takes no frame
dimensions (the frame area is the hardcoded `640 * 480`), so it cannot
match the spec's `is_suspect(bbox, frame_width, frame_height)` on other
frame sizes: at `bbox = (0, 0, 600, 300)` the spec-side function on a
10000x10000 frame is suspect (rule 1 off, rule 2 fires on
`aspect_ratio = 2`), while the code returns not suspect (on its fixed
640x480 frame the box has `box_percentage > 50` and `height = 300 > 250`,
so rule 1 fires). Hence no pair of frame sizes can make the code's rule-1
test differ. -/
theorem is_suspect_frame_dims_cex :
    is_suspect_spec (0, 0, 600, 300) 10000 10000 = true ∧
    is_suspect (0, 0, 600, 300) = false :=
  ⟨by norm_num [is_suspect_spec], by norm_num [is_suspect]⟩

/-- C6 amended: the code's suspect filter is a function of the bounding box
alone; it computes `box_percentage` over the hardcoded frame area
`640 * 480`, and therefore coincides with the spec's contract
`is_suspect(bbox, frame_width, frame_height)` exactly at
`frame_width = 640, frame_height = 480` for every bounding box. -/
theorem is_suspect_eq_spec_640_480 (bbox : Bbox) :
    is_suspect bbox = is_suspect_spec bbox 640 480 := rfl

/-- C7: for every bounding box with `y2 == y1` the filter returns False via
the `height == 0` guard, and the aspect-ratio division (modelled as the
checked `divE`) is never reached, in particular at the spec's example
`bbox = (10, 10, 50, 10)`. -/
theorem is_suspectE_zero_height :
    (∀ x1 y1 x2 : ℚ, is_suspectE (x1, y1, x2, y1) = .ok false) ∧
    is_suspectE (10, 10, 50, 10) = .ok false := by
  constructor
  · intro x1 y1 x2
    simp [is_suspectE]
  · norm_num [is_suspectE]

/-- C2: `_confirm_fall` returns False on `None`; returns True whenever the
pose's orientation is `'horizontal'`, regardless of its keypoint values;
and otherwise, on a pose containing the `nose`, `left_hip` and `right_hip`
keypoints, returns True exactly when
`|nose.y - (left_hip.y + right_hip.y)/2| < 20`. -/
theorem confirm_fall_cases :
    confirm_fall none = .ok false ∧
    (∀ p : PoseDict, p.lookup "orientation" = some (.str "horizontal") →
      confirm_fall (some p) = .ok true) ∧
    (∀ (p : PoseDict) (ny ly ry : ℚ),
      p.lookup "orientation" ≠ some (.str "horizontal") →
      getY p "nose" = .ok ny → getY p "left_hip" = .ok ly →
      getY p "right_hip" = .ok ry →
      confirm_fall (some p) = .ok (decide (|ny - (ly + ry) / 2| < 20))) := by
  refine ⟨rfl, ?_, ?_⟩
  · intro p hp
    have hne : p ≠ [] := by
      intro he
      rw [he] at hp
      simp [List.lookup] at hp
    simp only [confirm_fall, if_neg hne, if_pos hp]
  · intro p ny ly ry horient hn hl hr
    have hne : p ≠ [] := by
      intro he
      rw [he] at hn
      simp [getY, List.lookup] at hn
    simp only [confirm_fall, if_neg hne, if_neg horient, hn, hl, hr]
    by_cases habs : |ny - (ly + ry) / 2| < 20 <;>
      simp [habs, bind, Except.bind]

/-- Witness for C2: the theorem applied to the pose service's two concrete
mock poses: the horizontal pose confirms through its orientation tag; the
vertical pose (nose y 120, hip ys 200/200, difference 80) does not. -/
theorem confirm_fall_cases_witness :
    confirm_fall (some horizontalPose) = .ok true ∧
    confirm_fall (some verticalPose) =
      .ok (decide (|(120 : ℚ) - (200 + 200) / 2| < 20)) :=
  ⟨confirm_fall_cases.2.1 horizontalPose lookup_horizontalPose_orientation,
   confirm_fall_cases.2.2 verticalPose 120 200 200
     (by rw [lookup_verticalPose_orientation]; intro h; simp at h)
     getY_verticalPose.1 getY_verticalPose.2.1 getY_verticalPose.2.2⟩

/-- C10: `_confirm_fall` returns (rather than raising) exactly when the
pose is `None` or the empty dict, or carries
`orientation = 'horizontal'`, or contains all three of the `nose`,
`left_hip` and `right_hip` keypoints as coordinate pairs; a non-empty pose
of any other shape makes the unguarded key access fail instead of
returning False. -/
theorem confirm_fall_ok_iff (pose_data : Option PoseDict) :
    (∃ b, confirm_fall pose_data = .ok b) ↔
      (pose_data = none ∨ pose_data = some [] ∨
       (∃ p, pose_data = some p ∧
         p.lookup "orientation" = some (.str "horizontal")) ∨
       (∃ p, pose_data = some p ∧ (∃ y, getY p "nose" = .ok y) ∧
         (∃ y, getY p "left_hip" = .ok y) ∧
         (∃ y, getY p "right_hip" = .ok y))) := by
  cases pose_data with
  | none => simp [confirm_fall]
  | some p =>
    by_cases hne : p = []
    · subst hne
      simp [confirm_fall]
    · by_cases horient : p.lookup "orientation" = some (.str "horizontal")
      · simp only [confirm_fall, if_neg hne, if_pos horient]
        simp [horient]
      · simp only [confirm_fall, if_neg hne, if_neg horient]
        constructor
        · rintro ⟨b, hb⟩
          refine Or.inr (Or.inr (Or.inr ⟨p, rfl, ?_, ?_, ?_⟩))
          · cases hn : getY p "nose" with
            | ok y => exact ⟨y, rfl⟩
            | error e =>
              rw [hn] at hb
              simp [bind, Except.bind] at hb
          · cases hn : getY p "nose" with
            | ok y =>
              rw [hn] at hb
              cases hl : getY p "left_hip" with
              | ok y' => exact ⟨y', rfl⟩
              | error e =>
                rw [hl] at hb
                simp [bind, Except.bind] at hb
            | error e =>
              rw [hn] at hb
              simp [bind, Except.bind] at hb
          · cases hn : getY p "nose" with
            | ok y =>
              rw [hn] at hb
              cases hl : getY p "left_hip" with
              | ok y' =>
                rw [hl] at hb
                cases hr : getY p "right_hip" with
                | ok y'' => exact ⟨y'', rfl⟩
                | error e =>
                  rw [hr] at hb
                  simp [bind, Except.bind] at hb
              | error e =>
                rw [hl] at hb
                simp [bind, Except.bind] at hb
            | error e =>
              rw [hn] at hb
              simp [bind, Except.bind] at hb
        · rintro (h | h | ⟨q, hq, h⟩ | ⟨q, hq, ⟨yn, hn⟩, ⟨yl, hl⟩, ⟨yr, hr⟩⟩)
          · exact absurd h (by simp)
          · exact absurd (Option.some.inj h) hne
          · obtain rfl := Option.some.inj hq
            exact absurd h horient
          · obtain rfl := Option.some.inj hq
            rw [hn, hl, hr]
            by_cases habs : |yn - (yl + yr) / 2| < 20 <;>
              simp [habs, bind, Except.bind]

lemma lookup_none_of_not_mem (url : String) (l : List (String × ℕ))
    (h : url ∉ l.map Prod.fst) : l.lookup url = none := by
  induction l with
  | nil => rfl
  | cons kv t ih =>
    simp only [List.map_cons, List.mem_cons, not_or] at h
    have hk : (url == kv.1) = false := beq_eq_false_iff_ne.mpr h.1
    simpa [List.lookup, hk] using ih h.2

lemma lookup_eraseP_self (url : String) (l : List (String × ℕ))
    (h : (l.map Prod.fst).Nodup) :
    (l.eraseP (fun kv => kv.1 == url)).lookup url = none := by
  induction l with
  | nil => rfl
  | cons kv t ih =>
    simp only [List.map_cons, List.nodup_cons] at h
    by_cases hk : kv.1 = url
    · have hp : (kv.1 == url) = true := beq_iff_eq.mpr hk
      simp only [List.eraseP_cons, hp, cond_true]
      exact lookup_none_of_not_mem url t (hk ▸ h.1)
    · have hp : (kv.1 == url) = false := beq_eq_false_iff_ne.mpr hk
      simp only [List.eraseP_cons, hp, cond_false]
      have hu : (url == kv.1) = false :=
        beq_eq_false_iff_ne.mpr fun he => hk he.symm
      simpa [List.lookup, hu] using ih h.2

lemma release_stream_of_lookup_none (url : String) (s : StreamState)
    (h : s.active_streams.lookup url = none) :
    release_stream url s = .ok s := by
  simp [release_stream, h]

/-- C8: `release_stream` releases the capture handle exactly once and is
idempotent. When the keys of `active_streams` are distinct (a Python dict
guarantees this), a second `release_stream(camera_url)` after either a
`release_stream(camera_url)` or after `read_frame`'s failure path has
already removed the stream returns `.ok` of the unchanged state: both
registries stay as they are, the log of `.release()` calls on capture
handles does not grow, and no error is raised. -/
theorem release_stream_idempotent (url : String) (s : StreamState)
    (hnd : (s.active_streams.map Prod.fst).Nodup) :
    (∀ s₁, release_stream url s = .ok s₁ → release_stream url s₁ = .ok s₁) ∧
    (∀ s₁, read_frame_failure url s = .ok s₁ →
      release_stream url s₁ = .ok s₁) := by
  constructor
  · intro s₁ h
    cases hl : s.active_streams.lookup url with
    | none =>
      rw [release_stream_of_lookup_none url s hl] at h
      obtain rfl := Except.ok.inj h
      exact release_stream_of_lookup_none url s hl
    | some cap =>
      simp only [release_stream, hl, dictDel, Option.isSome_some, if_pos,
        bind, Except.bind] at h
      obtain rfl := (Except.ok.inj h).symm
      exact release_stream_of_lookup_none url _
        (lookup_eraseP_self url s.active_streams hnd)
  · intro s₁ h
    cases hl : s.active_streams.lookup url with
    | none => simp [read_frame_failure, hl] at h
    | some cap =>
      simp only [read_frame_failure, hl, dictDel, Option.isSome_some,
        if_pos, bind, Except.bind] at h
      obtain rfl := (Except.ok.inj h).symm
      exact release_stream_of_lookup_none url _
        (lookup_eraseP_self url s.active_streams hnd)

/-- Witness for C8: a registry holding one stream `"cam0"` with capture
handle 7 and its lock. Releasing it yields the empty registries with the
one release logged, and the theorem then gives that a second release (and a
release after the read-failure removal, which keeps the lock) is a no-op. -/
theorem release_stream_idempotent_witness :
    release_stream "cam0" ⟨[], [], [7]⟩ = .ok ⟨[], [], [7]⟩ ∧
    release_stream "cam0" ⟨[], ["cam0"], [7]⟩ = .ok ⟨[], ["cam0"], [7]⟩ :=
  ⟨(release_stream_idempotent "cam0" ⟨[("cam0", 7)], ["cam0"], []⟩
      (by simp)).1 ⟨[], [], [7]⟩
      (by simp [release_stream, dictDel, List.lookup, List.eraseP,
        List.erase, bind, Except.bind]),
   (release_stream_idempotent "cam0" ⟨[("cam0", 7)], ["cam0"], []⟩
      (by simp)).2 ⟨[], ["cam0"], [7]⟩
      (by simp [read_frame_failure, dictDel, List.lookup, List.eraseP,
        bind, Except.bind])⟩

/-! ### Step and loop lemmas for `process_frame` -/

lemma processPerson_not_suspect (poses : ℕ → PoseDict) (s : LoopState)
    (person : Person) (h : is_suspect person.bbox = false) :
    processPerson poses s person =
      .ok ⟨s.detections ++ [⟨person.bbox, false, none⟩], s.fall_detected,
           s.event_details, s.pose_calls⟩ := by
  simp [processPerson, h]

lemma processPerson_suspect_noconfirm (poses : ℕ → PoseDict) (s : LoopState)
    (person : Person) (h : is_suspect person.bbox = true)
    (hc : confirm_fall (some (poses s.pose_calls)) = .ok false) :
    processPerson poses s person =
      .ok ⟨s.detections ++ [⟨person.bbox, true, some (poses s.pose_calls)⟩],
           s.fall_detected, s.event_details, s.pose_calls + 1⟩ := by
  simp [processPerson, h, hc, bind, Except.bind]

lemma processPerson_suspect_confirm (poses : ℕ → PoseDict) (s : LoopState)
    (person : Person) (pc : ℚ) (h : is_suspect person.bbox = true)
    (hc : confirm_fall (some (poses s.pose_calls)) = .ok true)
    (hn : getNum (poses s.pose_calls) "confidence" = .ok pc) :
    processPerson poses s person =
      .ok ⟨s.detections ++ [⟨person.bbox, true, some (poses s.pose_calls)⟩],
           true,
           some ⟨(person.confidence + pc) / 2, person.bbox,
                 poses s.pose_calls⟩,
           s.pose_calls + 1⟩ := by
  simp [processPerson, h, hc, hn, bind, Except.bind]

lemma processPerson_ok_cases (poses : ℕ → PoseDict) (s : LoopState)
    (person : Person) (s' : LoopState)
    (h : processPerson poses s person = .ok s') :
    (is_suspect person.bbox = false ∧
      s' = ⟨s.detections ++ [⟨person.bbox, false, none⟩], s.fall_detected,
            s.event_details, s.pose_calls⟩) ∨
    (is_suspect person.bbox = true ∧
      confirm_fall (some (poses s.pose_calls)) = .ok false ∧
      s' = ⟨s.detections ++ [⟨person.bbox, true, some (poses s.pose_calls)⟩],
            s.fall_detected, s.event_details, s.pose_calls + 1⟩) ∨
    (is_suspect person.bbox = true ∧
      confirm_fall (some (poses s.pose_calls)) = .ok true ∧
      ∃ pc, getNum (poses s.pose_calls) "confidence" = .ok pc ∧
        s' = ⟨s.detections ++
                [⟨person.bbox, true, some (poses s.pose_calls)⟩],
              true,
              some ⟨(person.confidence + pc) / 2, person.bbox,
                    poses s.pose_calls⟩,
              s.pose_calls + 1⟩) := by
  cases hb : is_suspect person.bbox with
  | false =>
    rw [processPerson_not_suspect poses s person hb] at h
    exact Or.inl ⟨rfl, (Except.ok.inj h).symm⟩
  | true =>
    cases hc : confirm_fall (some (poses s.pose_calls)) with
    | error e =>
      simp [processPerson, hb, hc, bind, Except.bind] at h
    | ok b =>
      cases b with
      | false =>
        rw [processPerson_suspect_noconfirm poses s person hb hc] at h
        exact Or.inr (Or.inl ⟨rfl, rfl, (Except.ok.inj h).symm⟩)
      | true =>
        cases hn : getNum (poses s.pose_calls) "confidence" with
        | error e =>
          simp [processPerson, hb, hc, hn, bind, Except.bind] at h
        | ok pc =>
          rw [processPerson_suspect_confirm poses s person pc hb hc hn] at h
          exact Or.inr (Or.inr ⟨rfl, rfl, pc, rfl, (Except.ok.inj h).symm⟩)

lemma processLoop_append (poses : ℕ → PoseDict) (l1 l2 : List Person)
    (s : LoopState) :
    processLoop poses (l1 ++ l2) s =
      (processLoop poses l1 s).bind (processLoop poses l2) := by
  induction l1 generalizing s with
  | nil => simp [processLoop, Except.bind]
  | cons p t ih =>
    simp only [List.cons_append, processLoop, bind]
    cases h : processPerson poses s p with
    | ok s1 => simp [Except.bind, h, ih]
    | error e => simp [Except.bind, h]

lemma processLoop_pose_calls (poses : ℕ → PoseDict) (l : List Person) :
    ∀ (s s' : LoopState), processLoop poses l s = .ok s' →
      s'.pose_calls =
        s.pose_calls + (l.filter (fun p => is_suspect p.bbox)).length := by
  induction l with
  | nil =>
    intro s s' h
    obtain rfl := Except.ok.inj h
    simp
  | cons p t ih =>
    intro s s' h
    simp only [processLoop, bind, Except.bind] at h
    cases hp : processPerson poses s p with
    | error e => rw [hp] at h; exact absurd h (by simp)
    | ok s1 =>
      rw [hp] at h
      have h1 := ih s1 s' h
      rcases processPerson_ok_cases poses s p s1 hp with
        ⟨hb, rfl⟩ | ⟨hb, _, rfl⟩ | ⟨hb, _, pc, _, rfl⟩ <;>
        simp [h1, List.filter_cons, hb] <;> omega

lemma processLoop_invariants (poses : ℕ → PoseDict) (l : List Person) :
    ∀ (s s' : LoopState), processLoop poses l s = .ok s' →
      ((s.fall_detected = true ↔ s.event_details ≠ none) →
        (s'.fall_detected = true ↔ s'.event_details ≠ none)) ∧
      ((∀ d ∈ s.detections, d.pose ≠ none → d.is_suspect = true) →
        ∀ d ∈ s'.detections, d.pose ≠ none → d.is_suspect = true) ∧
      (∀ e, s'.event_details = some e →
        s.event_details = some e ∨
        ∃ person ∈ l, ∃ pc, getNum e.pose "confidence" = .ok pc ∧
          e.bbox = person.bbox ∧
          e.confidence = (person.confidence + pc) / 2) := by
  induction l with
  | nil =>
    intro s s' h
    obtain rfl := Except.ok.inj h
    exact ⟨fun hi => hi, fun hi => hi, fun e he => Or.inl he⟩
  | cons p t ih =>
    intro s s' h
    simp only [processLoop, bind, Except.bind] at h
    cases hp : processPerson poses s p with
    | error e => rw [hp] at h; exact absurd h (by simp)
    | ok s1 =>
      rw [hp] at h
      have h1 := ih s1 s' h
      rcases processPerson_ok_cases poses s p s1 hp with
        ⟨hb, rfl⟩ | ⟨hb, hc, rfl⟩ | ⟨hb, hc, pc, hn, rfl⟩
      · refine ⟨fun hi => h1.1 hi, fun hi => h1.2.1 ?_, fun e he => ?_⟩
        · intro d hd
          rcases List.mem_append.mp hd with hd | hd
          · exact hi d hd
          · intro hps
            simp at hd
            subst hd
            simp at hps
        · rcases h1.2.2 e he with h0 | ⟨person, hmem, rest⟩
          · exact Or.inl h0
          · exact Or.inr ⟨person, List.mem_cons_of_mem p hmem, rest⟩
      · refine ⟨fun hi => h1.1 hi, fun hi => h1.2.1 ?_, fun e he => ?_⟩
        · intro d hd
          rcases List.mem_append.mp hd with hd | hd
          · exact hi d hd
          · intro hps
            simp at hd
            subst hd
            rfl
        · rcases h1.2.2 e he with h0 | ⟨person, hmem, rest⟩
          · exact Or.inl h0
          · exact Or.inr ⟨person, List.mem_cons_of_mem p hmem, rest⟩
      · refine ⟨fun hi => h1.1 (by simp), fun hi => h1.2.1 ?_,
          fun e he => ?_⟩
        · intro d hd
          rcases List.mem_append.mp hd with hd | hd
          · exact hi d hd
          · intro hps
            simp at hd
            subst hd
            rfl
        · rcases h1.2.2 e he with h0 | ⟨person, hmem, rest⟩
          · simp at h0
            subst h0
            exact Or.inr ⟨p, List.mem_cons_self p t,
              pc, hn, rfl, rfl⟩
          · exact Or.inr ⟨person, List.mem_cons_of_mem p hmem, rest⟩

/-- C4: for every camera id and every sequence of detector and pose
outputs, a `FrameResult` returned by `process_frame` satisfies the
invariants: `fall_detected` holds exactly when `event_details` is set;
every `DetectionInfo` carrying a pose is a suspect; and when a fall is
reported, `event_details.confidence` is the arithmetic mean of the
detection's confidence and the pose's confidence (the pose stored in
`event_details` carries that same confidence under its
`'confidence'` key). -/
theorem process_frame_invariants (cam : String) (persons : List Person)
    (poses : ℕ → PoseDict) (r : FrameResult)
    (h : process_frame cam persons poses = .ok r) :
    (r.fall_detected = true ↔ r.event_details ≠ none) ∧
    (∀ d ∈ r.detections, d.pose ≠ none → d.is_suspect = true) ∧
    (∀ e, r.event_details = some e →
      ∃ person ∈ persons, ∃ pc, getNum e.pose "confidence" = .ok pc ∧
        e.bbox = person.bbox ∧
        e.confidence = (person.confidence + pc) / 2) := by
  simp only [process_frame, processFrameFull, bind, Except.bind] at h
  cases hs : processLoop poses persons ⟨[], false, none, 0⟩ with
  | error e => rw [hs] at h; exact absurd h (by simp)
  | ok sfin =>
    rw [hs] at h
    obtain rfl := (Except.ok.inj h).symm
    have hi := processLoop_invariants poses persons ⟨[], false, none, 0⟩
      sfin hs
    refine ⟨hi.1 (by simp), fun d hd => hi.2.1 (by simp) d hd, ?_⟩
    intro e he
    rcases hi.2.2 e he with h0 | h1
    · exact absurd h0 (by simp)
    · exact h1

/-- The spec's end-to-end scenario input: one detection with
`bbox = (140, 280, 160, 290)` at confidence 0.85. -/
def demoPersons : List Person := [⟨(140, 280, 160, 290), 17 / 20⟩]

/-- The frame result of the end-to-end scenario: the detection is suspect
(aspect ratio 2 > 1.5), its pose is horizontal with confidence 0.9, so the
fall is confirmed with confidence `(0.85 + 0.9) / 2`. -/
def demoResult : FrameResult :=
  ⟨"cam", [⟨(140, 280, 160, 290), true, some horizontalPose⟩], true,
   some ⟨(17 / 20 + 9 / 10) / 2, (140, 280, 160, 290), horizontalPose⟩⟩

lemma process_frame_demo :
    process_frame "cam" demoPersons (fun _ => horizontalPose) =
      .ok demoResult := by
  have hb : is_suspect (140, 280, 160, 290) = true := by
    norm_num [is_suspect]
  have hstep := processPerson_suspect_confirm (fun _ => horizontalPose)
    ⟨[], false, none, 0⟩ ⟨(140, 280, 160, 290), 17 / 20⟩ (9 / 10) hb
    confirm_fall_horizontalPose getNum_horizontalPose_confidence
  simp only [demoPersons, demoResult, process_frame, processFrameFull,
    processLoop, bind, Except.bind, hstep, List.nil_append]

/-- Witness for C4: the invariants instantiated on the spec's end-to-end
scenario, whose frame result reports the fall with confidence
`(0.85 + 0.9) / 2 = 0.875`. -/
theorem process_frame_invariants_witness :
    (demoResult.fall_detected = true ↔ demoResult.event_details ≠ none) ∧
    (∀ d ∈ demoResult.detections, d.pose ≠ none → d.is_suspect = true) ∧
    (∀ e, demoResult.event_details = some e →
      ∃ person ∈ demoPersons, ∃ pc, getNum e.pose "confidence" = .ok pc ∧
        e.bbox = person.bbox ∧
        e.confidence = (person.confidence + pc) / 2) :=
  process_frame_invariants "cam" demoPersons (fun _ => horizontalPose)
    demoResult process_frame_demo

/-- Counterexample to C3: two detections in one frame, both suspects (wide
boxes) whose horizontal poses confirm falls. The first has confidence 0.8,
the second 0.6. `process_frame` returns `event_details` for the SECOND
(last) confirmed fall, `confidence = (0.6 + 0.9)/2 = 0.75`, not for the
first, whose details `confidence = (0.8 + 0.9)/2 = 0.85` differ: the later
confirmed fall overwrote the earlier one. -/
theorem process_frame_event_overwrite_cex :
    (process_frame "cam"
        [⟨(0, 0, 300, 100), 4 / 5⟩, ⟨(0, 0, 320, 100), 3 / 5⟩]
        (fun _ => horizontalPose)).map FrameResult.event_details =
      .ok (some ⟨(3 / 5 + 9 / 10) / 2, (0, 0, 320, 100), horizontalPose⟩) ∧
    (⟨(3 / 5 + 9 / 10) / 2, (0, 0, 320, 100), horizontalPose⟩ :
        EventDetails) ≠
      ⟨(4 / 5 + 9 / 10) / 2, (0, 0, 300, 100), horizontalPose⟩ := by
  constructor
  · have hb1 : is_suspect (0, 0, 300, 100) = true := by
      norm_num [is_suspect]
    have hb2 : is_suspect (0, 0, 320, 100) = true := by
      norm_num [is_suspect]
    have h1 := processPerson_suspect_confirm (fun _ => horizontalPose)
      ⟨[], false, none, 0⟩ ⟨(0, 0, 300, 100), 4 / 5⟩ (9 / 10) hb1
      confirm_fall_horizontalPose getNum_horizontalPose_confidence
    have h2 := processPerson_suspect_confirm (fun _ => horizontalPose)
      ⟨[⟨(0, 0, 300, 100), true, some horizontalPose⟩], true,
       some ⟨(4 / 5 + 9 / 10) / 2, (0, 0, 300, 100), horizontalPose⟩, 0 + 1⟩
      ⟨(0, 0, 320, 100), 3 / 5⟩ (9 / 10) hb2
      confirm_fall_horizontalPose getNum_horizontalPose_confidence
    simp only [process_frame, processFrameFull, processLoop, bind,
      Except.bind, h1, List.nil_append, h2, Except.map]
  · intro h
    rw [EventDetails.mk.injEq] at h
    norm_num at h

/-- C3 amended: `event_details` is set for the LAST confirmed-fall
detection in detector output order: whenever the final detection of the
frame is a suspect whose pose (the one returned at the pose call indexed by
the number of suspects before it) confirms a fall, the returned
`event_details` holds that detection's confidence mean, bbox and pose —
overwriting the details of any earlier confirmed fall in the same frame. -/
theorem process_frame_event_last_wins (cam : String) (pre : List Person)
    (last : Person) (poses : ℕ → PoseDict) (pc : ℚ) (r : FrameResult)
    (hs : is_suspect last.bbox = true)
    (hc : confirm_fall
      (some (poses (pre.filter (fun p => is_suspect p.bbox)).length)) =
      .ok true)
    (hn : getNum (poses (pre.filter (fun p => is_suspect p.bbox)).length)
      "confidence" = .ok pc)
    (h : process_frame cam (pre ++ [last]) poses = .ok r) :
    r.fall_detected = true ∧
    r.event_details = some ⟨(last.confidence + pc) / 2, last.bbox,
      poses (pre.filter (fun p => is_suspect p.bbox)).length⟩ := by
  simp only [process_frame, processFrameFull, bind, Except.bind] at h
  rw [processLoop_append] at h
  cases hpre : processLoop poses pre ⟨[], false, none, 0⟩ with
  | error e => rw [hpre] at h; simp [Except.bind] at h
  | ok s1 =>
    rw [hpre] at h
    have hk : s1.pose_calls =
        (pre.filter (fun p => is_suspect p.bbox)).length := by
      simpa using processLoop_pose_calls poses pre ⟨[], false, none, 0⟩
        s1 hpre
    rw [← hk] at hc hn
    have hstep := processPerson_suspect_confirm poses s1 last pc hs hc hn
    simp only [Except.bind, processLoop, bind, hstep] at h
    obtain rfl := (Except.ok.inj h).symm
    exact ⟨rfl, by rw [← hk]⟩

/-- Witness for C3's amended claim: the two-confirmed-falls frame of the
counterexample; the last suspect is preceded by exactly one suspect, so its
pose call has index 1, and the reported event carries its data. -/
theorem process_frame_event_last_wins_witness :
    (⟨"cam",
      [⟨(0, 0, 300, 100), true, some horizontalPose⟩,
       ⟨(0, 0, 320, 100), true, some horizontalPose⟩], true,
      some ⟨(3 / 5 + 9 / 10) / 2, (0, 0, 320, 100), horizontalPose⟩⟩ :
        FrameResult).fall_detected = true ∧
    (⟨"cam",
      [⟨(0, 0, 300, 100), true, some horizontalPose⟩,
       ⟨(0, 0, 320, 100), true, some horizontalPose⟩], true,
      some ⟨(3 / 5 + 9 / 10) / 2, (0, 0, 320, 100), horizontalPose⟩⟩ :
        FrameResult).event_details =
      some ⟨((⟨(0, 0, 320, 100), 3 / 5⟩ : Person).confidence + 9 / 10) / 2,
        (⟨(0, 0, 320, 100), 3 / 5⟩ : Person).bbox,
        (fun _ : ℕ => horizontalPose)
          (([⟨(0, 0, 300, 100), 4 / 5⟩] :
            List Person).filter (fun p => is_suspect p.bbox)).length⟩ :=
  process_frame_event_last_wins "cam" [⟨(0, 0, 300, 100), 4 / 5⟩]
    ⟨(0, 0, 320, 100), 3 / 5⟩ (fun _ => horizontalPose) (9 / 10)
    ⟨"cam",
      [⟨(0, 0, 300, 100), true, some horizontalPose⟩,
       ⟨(0, 0, 320, 100), true, some horizontalPose⟩], true,
      some ⟨(3 / 5 + 9 / 10) / 2, (0, 0, 320, 100), horizontalPose⟩⟩
    (by norm_num [is_suspect])
    confirm_fall_horizontalPose
    getNum_horizontalPose_confidence
    (by
      have hb1 : is_suspect (0, 0, 300, 100) = true := by
        norm_num [is_suspect]
      have hb2 : is_suspect (0, 0, 320, 100) = true := by
        norm_num [is_suspect]
      have h1 := processPerson_suspect_confirm (fun _ => horizontalPose)
        ⟨[], false, none, 0⟩ ⟨(0, 0, 300, 100), 4 / 5⟩ (9 / 10) hb1
        confirm_fall_horizontalPose getNum_horizontalPose_confidence
      have h2 := processPerson_suspect_confirm (fun _ => horizontalPose)
        ⟨[⟨(0, 0, 300, 100), true, some horizontalPose⟩], true,
         some ⟨(4 / 5 + 9 / 10) / 2, (0, 0, 300, 100), horizontalPose⟩,
         0 + 1⟩
        ⟨(0, 0, 320, 100), 3 / 5⟩ (9 / 10) hb2
        confirm_fall_horizontalPose getNum_horizontalPose_confidence
      simp only [process_frame, processFrameFull, processLoop, bind,
        Except.bind, List.cons_append, List.nil_append, h1, h2])

lemma is_suspect_mock_bbox : is_suspect (100, 100, 200, 300) = false := by
  norm_num [is_suspect]

lemma mock_detection_cases_eq (r c : ℚ) :
    mock_detection r c = [] ∨
    mock_detection r c = [⟨(100, 100, 200, 300), 0.85 + c * 0.14⟩] := by
  by_cases hr : r > 0.3
  · exact Or.inr (by simp [mock_detection, hr])
  · exact Or.inl (by simp [mock_detection, hr])

lemma processFrameFull_mock (r c : ℚ) (poses : ℕ → PoseDict)
    (s : LoopState) (h : processFrameFull (mock_detection r c) poses = .ok s) :
    s.pose_calls = 0 ∧ s.fall_detected = false ∧
    s.event_details = none ∧ ∀ d ∈ s.detections, d.pose = none := by
  rcases mock_detection_cases_eq r c with hm | hm
  · rw [hm] at h
    simp only [processFrameFull, processLoop] at h
    obtain rfl := (Except.ok.inj h).symm
    exact ⟨rfl, rfl, rfl, by simp⟩
  · have hstep := processPerson_not_suspect poses ⟨[], false, none, 0⟩
      ⟨(100, 100, 200, 300), 0.85 + c * 0.14⟩ is_suspect_mock_bbox
    rw [hm] at h
    simp only [processFrameFull, processLoop] at h
    rw [hstep] at h
    simp only [bind, Except.bind, processLoop, List.nil_append] at h
    obtain rfl := (Except.ok.inj h).symm
    refine ⟨rfl, rfl, rfl, ?_⟩
    intro d hd
    simp at hd
    subst hd
    rfl

/-- C9: every detection of the mock path has bbox `[100, 100, 200, 300]`;
that box is not a suspect on the assumed 640x480 frame (width 100, height
200: rule 1 needs percentage > 50, rule 2 needs aspect > 1.5 but it is 0.5,
rule 3 needs center y > 300 but it is 200, rule 4 needs height < 180); so
on mock-mode detector output `process_frame` makes no pose-estimation call,
never sets `fall_detected`, and returns `event_details = None`. -/
theorem mock_mode_no_event (cam : String) (r c : ℚ) (poses : ℕ → PoseDict) :
    (∀ p ∈ mock_detection r c, p.bbox = (100, 100, 200, 300)) ∧
    is_suspect (100, 100, 200, 300) = false ∧
    (∀ s, processFrameFull (mock_detection r c) poses = .ok s →
      s.pose_calls = 0 ∧ s.fall_detected = false ∧
      s.event_details = none) ∧
    (∀ res, process_frame cam (mock_detection r c) poses = .ok res →
      res.fall_detected = false ∧ res.event_details = none ∧
      ∀ d ∈ res.detections, d.pose = none) := by
  refine ⟨?_, is_suspect_mock_bbox,
    fun s h => ⟨(processFrameFull_mock r c poses s h).1,
      (processFrameFull_mock r c poses s h).2.1,
      (processFrameFull_mock r c poses s h).2.2.1⟩, ?_⟩
  · intro p hp
    rcases mock_detection_cases_eq r c with hm | hm <;> rw [hm] at hp
    · simp at hp
    · simp at hp
      subst hp
      rfl
  · intro res h
    simp only [process_frame, bind, Except.bind] at h
    cases hs : processFrameFull (mock_detection r c) poses with
    | error e => rw [hs] at h; exact absurd h (by simp)
    | ok sfin =>
      rw [hs] at h
      obtain rfl := (Except.ok.inj h).symm
      have hf := processFrameFull_mock r c poses sfin hs
      exact ⟨hf.2.1, hf.2.2.1, hf.2.2.2⟩

/-- Witness for C9: the mock path with draws `r = 1, c = 0` produces the
single fabricated detection; running the pipeline on it makes zero pose
calls and reports no fall. -/
theorem mock_mode_no_event_witness :
    (false : Bool) = false ∧ (none : Option EventDetails) = none ∧
    ∀ d ∈ [(⟨(100, 100, 200, 300), false, none⟩ : DetectionInfo)],
      d.pose = none :=
  (mock_mode_no_event "cam" 1 0 (fun _ => [])).2.2.2
    ⟨"cam", [⟨(100, 100, 200, 300), false, none⟩], false, none⟩
    (by
      have hb : is_suspect (100, 100, 200, 300) = false := by
        norm_num [is_suspect]
      have hm : mock_detection 1 0 =
          [⟨(100, 100, 200, 300), 0.85 + 0 * 0.14⟩] := by
        simp [mock_detection]
        norm_num
      have hstep := processPerson_not_suspect (fun _ => [])
        ⟨[], false, none, 0⟩ ⟨(100, 100, 200, 300), 0.85 + 0 * 0.14⟩ hb
      simp only [process_frame, processFrameFull, hm, processLoop, bind,
        Except.bind, hstep, List.nil_append])

/-- Counterexample to C5: the degraded path is neither deterministic nor
distinguishable from real inference. With the model present but the frame
absent (degraded mode), two calls with the same caller-visible inputs but
different internal `random.random()` draws return different values (one
fabricated person detection versus no detections); and the degraded output
for a draw below 0.3 equals the real-inference output `[]`, so a caller
cannot tell them apart — the mock result carries no mode flag. -/
theorem detect_persons_degraded_cex :
    detect_persons none true (.ok []) 1 0 ≠
      detect_persons none true (.ok []) (1 / 5) 0 ∧
    detect_persons none true (.ok []) (1 / 5) 0 =
      detect_persons (some 0) true (.ok []) (1 / 5) 0 := by
  constructor
  · intro h
    simp only [detect_persons, mock_detection] at h
    norm_num at h
  · simp only [detect_persons, mock_detection]
    norm_num

/-- C5 amended: when the frame is `None`, the model is not loaded, or
inference raises, `detect_persons` returns `_mock_detection()`'s output
without propagating any exception; but that output depends on the random
draws — it is the empty list when the first draw is at most 0.3 and
otherwise a single fabricated `'person'` at bbox `[100, 100, 200, 300]`
with confidence `0.85 + 0.14 * random()` — and carries no degraded-mode
marker distinguishing it from real inference output. -/
theorem detect_persons_degraded (f : Frame) (loaded : Bool)
    (infer : Except Unit (List Person)) (r c : ℚ) :
    detect_persons none loaded infer r c = mock_detection r c ∧
    detect_persons (some f) false infer r c = mock_detection r c ∧
    detect_persons (some f) true (.error ()) r c = mock_detection r c ∧
    (mock_detection r c = [] ∨
      mock_detection r c = [⟨(100, 100, 200, 300), 0.85 + c * 0.14⟩]) := by
  refine ⟨by simp [detect_persons], by simp [detect_persons],
    by simp [detect_persons], ?_⟩
  by_cases hr : r > 0.3
  · exact Or.inr (by simp [mock_detection, hr])
  · exact Or.inl (by simp [mock_detection, hr])

end FallDetection
